import Mathlib

/-!
# Verification of the blaze-dock window-discovery layer

Shallow embedding of `src/services/window_tracker.rs`: the environment
detector, the four protocol backends' parsing code, and the window registry
with its query API.  Rust `HashMap<String, u32>` is modelled as an
association list with first-key lookup (`lookupExact`); keys are unique in
every state the program produces, so the model agrees with the hash map on
all operations used.  Rust `String::to_lowercase` is modelled as a per-char
lowercase map (`rustLower`), and `str::contains` as substring containment on
the character list (`containsStr`).
-/

set_option autoImplicit false

/-- `WindowInfo` record from the tracker (`id`, `title`, `app_id`, `is_active`). -/
structure WindowInfo where
  id : String
  title : String
  app_id : String
  is_active : Bool
  deriving Repr, DecidableEq

/-- `DesktopEnvironment` enum: the detected backend kind. -/
inductive DesktopEnvironment where
  | KDE
  | GNOME
  | Hyprland
  | Sway
  | Unknown
  deriving Repr, DecidableEq

/-- The mutable state of `WindowTracker` that the claims concern: the window
list (`windows`) and the app-to-count map (`app_window_counts`). -/
structure Registry where
  windows : List WindowInfo
  app_window_counts : List (String × Nat)
  deriving Repr, DecidableEq

/-- The registry is created empty at tracker construction. -/
def Registry.empty : Registry := ⟨[], []⟩

/-! ## String primitives used by the tracker -/

/-- Model of Rust `String::to_lowercase` (per-character lowercasing; the
tracker only ever compares ASCII app ids). -/
def rustLower (s : String) : String := ⟨s.data.map Char.toLower⟩

/-- `l₁` occurs as a contiguous sublist of `l₂`. -/
def listIsInfix (l₁ l₂ : List Char) : Bool :=
  l₂.tails.any (fun t => l₁.isPrefixOf t)

/-- Model of Rust `haystack.contains(needle)` for strings: substring test. -/
def containsStr (haystack needle : String) : Bool :=
  listIsInfix needle.toList haystack.toList

/-! ## HashMap model: association list with unique keys -/

/-- `HashMap::get`: value of the first (unique) binding of `k`. -/
def lookupExact (m : List (String × Nat)) (k : String) : Option Nat :=
  (m.find? (fun kv => kv.1 == k)).map (·.2)

/-- `HashMap::insert`: replace the binding of `k` if present, else add it. -/
def insertCount : List (String × Nat) → String → Nat → List (String × Nat)
  | [], k, v => [(k, v)]
  | kv :: rest, k, v =>
    if kv.1 == k then (k, v) :: rest else kv :: insertCount rest k v

/-- `HashMap::remove`: drop the binding of `k`. -/
def removeCount (m : List (String × Nat)) (k : String) : List (String × Nat) :=
  m.filter (fun kv => kv.1 != k)

/-- `*counts.entry(k).or_insert(0) += 1` from the parse loops. -/
def bumpCount (m : List (String × Nat)) (k : String) : List (String × Nat) :=
  insertCount m k ((lookupExact m k).getD 0 + 1)

/-- Count of `k` as the consumer sees it: stored value, absent means zero. -/
def countOf (m : List (String × Nat)) (k : String) : Nat :=
  (lookupExact m k).getD 0

/-! ## Registry query API (§4.6) -/

/-- The three-clause fuzzy predicate both query operations apply to a stored
key against the lowercased query: lowercased forms equal, or either contains
the other. -/
def fuzzy_match (key app_id_lower : String) : Bool :=
  rustLower key == app_id_lower
  || containsStr (rustLower key) app_id_lower
  || containsStr app_id_lower (rustLower key)

/-- `get_window_count`: exact-match lookup first, then a scan where the
stored key matches fuzzily; `0` when nothing matches.  Mirrors the Rust
loop, which returns the first match encountered. -/
def get_window_count (st : Registry) (app_id : String) : Nat :=
  match lookupExact st.app_window_counts app_id with
  | some count => count
  | none =>
    match st.app_window_counts.find? (fun kv => fuzzy_match kv.1 (rustLower app_id)) with
    | some kv => kv.2
    | none => 0

/-- `get_windows_for_app`: all records whose `app_id` fuzzily matches the
query (same three-clause predicate), in registry order. -/
def get_windows_for_app (st : Registry) (app_id : String) : List WindowInfo :=
  st.windows.filter (fun w => fuzzy_match w.app_id (rustLower app_id))

/-- `get_all_windows`: the current window list. -/
def get_all_windows (st : Registry) : List WindowInfo :=
  st.windows

/-- `set_window_count`: external override; a zero count removes the entry. -/
def set_window_count (st : Registry) (app_id : String) (count : Nat) : Registry :=
  if count == 0 then
    { st with app_window_counts := removeCount st.app_window_counts app_id }
  else
    { st with app_window_counts := insertCount st.app_window_counts app_id count }

/-! ## Environment detection (§4.1) -/

/-- The environment variables `detect_desktop_environment` reads.  `none`
models an unset variable; the two XDG variables go through
`unwrap_or_default`, the two compositor variables through `.ok()`. -/
structure EnvVars where
  xdg_current_desktop : Option String
  xdg_session_desktop : Option String
  hyprland_instance_signature : Option String
  swaysock : Option String

/-- `detect_desktop_environment`, line for line: Hyprland signature, then
Sway socket, then KDE/Plasma substrings of the lowercased desktop names,
then GNOME, else Unknown. -/
def detect_desktop_environment (env : EnvVars) : DesktopEnvironment :=
  let xdg_desktop := env.xdg_current_desktop.getD ""
  let xdg_session := env.xdg_session_desktop.getD ""
  if env.hyprland_instance_signature.isSome then
    DesktopEnvironment.Hyprland
  else if env.swaysock.isSome then
    DesktopEnvironment.Sway
  else
    let desktop_lower := rustLower xdg_desktop
    let session_lower := rustLower xdg_session
    if containsStr desktop_lower "kde" || containsStr desktop_lower "plasma"
        || containsStr session_lower "kde" || containsStr session_lower "plasma" then
      DesktopEnvironment.KDE
    else if containsStr desktop_lower "gnome" || containsStr session_lower "gnome" then
      DesktopEnvironment.GNOME
    else
      DesktopEnvironment.Unknown

/-! ## JSON values and serde-style deserialization -/

/-- JSON document model (numbers restricted to integers; the tracker only
reads integral fields). -/
inductive Json where
  | null
  | bool (b : Bool)
  | num (n : Int)
  | str (s : String)
  | arr (elems : List Json)
  | obj (fields : List (String × Json))
  deriving Repr

/-- serde `String`: only a JSON string deserializes. -/
def dsString : Json → Option String
  | Json.str s => some s
  | _ => none

/-- serde `Option<String>`: `null` gives `none`, a string gives `some`. -/
def dsOptString : Json → Option (Option String)
  | Json.null => some none
  | Json.str s => some (some s)
  | _ => none

/-- serde `bool`. -/
def dsBool : Json → Option Bool
  | Json.bool b => some b
  | _ => none

/-- serde `i64` (integral number in range). -/
def dsInt64 : Json → Option Int
  | Json.num n => if -(2 ^ 63) ≤ n ∧ n < 2 ^ 63 then some n else none
  | _ => none

/-- serde `i32` (integral number in range). -/
def dsInt32 : Json → Option Int
  | Json.num n => if -(2 ^ 31) ≤ n ∧ n < 2 ^ 31 then some n else none
  | _ => none

/-! ## Hyprland backend (§4.4): `parse_hyprland_clients` -/

/-- The `HyprClient` deserialization target (`class` is a Lean keyword, so
the field is named `wclass` here). -/
structure HyprClient where
  address : String
  title : String
  wclass : String
  workspace : Int
  deriving Repr, DecidableEq

/-- Accumulator for field-by-field struct deserialization (serde errors on a
duplicate field, so each slot records whether the field was seen). -/
structure HyprFieldsAcc where
  address : Option String := none
  title : Option String := none
  wclass : Option String := none
  workspace : Option Int := none

/-- One field of a `HyprClient` object: known fields must deserialize at the
expected type and may appear once; unknown fields are ignored (serde
default). -/
def dsHyprField (acc : HyprFieldsAcc) (name : String) (j : Json) : Option HyprFieldsAcc :=
  if name == "address" then
    match acc.address, dsString j with
    | none, some s => some { acc with address := some s }
    | _, _ => none
  else if name == "title" then
    match acc.title, dsString j with
    | none, some s => some { acc with title := some s }
    | _, _ => none
  else if name == "class" then
    match acc.wclass, dsString j with
    | none, some s => some { acc with wclass := some s }
    | _, _ => none
  else if name == "workspace" then
    match acc.workspace, dsInt32 j with
    | none, some n => some { acc with workspace := some n }
    | _, _ => none
  else
    some acc

/-- serde `HyprClient`: a JSON object whose `address`, `title`, `class`
fields are present strings; `workspace` defaults to `0`. -/
def dsHyprClient (j : Json) : Option HyprClient :=
  match j with
  | Json.obj fields => do
    let acc ← fields.foldlM (fun a nj => dsHyprField a nj.1 nj.2) {}
    let address ← acc.address
    let title ← acc.title
    let wclass ← acc.wclass
    pure { address := address, title := title, wclass := wclass,
           workspace := acc.workspace.getD 0 }
  | _ => none

/-- serde `Vec<HyprClient>`: a JSON array, every element a `HyprClient`. -/
def dsHyprClients (j : Json) : Option (List HyprClient) :=
  match j with
  | Json.arr elems => elems.mapM dsHyprClient
  | _ => none

/-- `parse_hyprland_clients`: on deserialization failure the `?` operator
returns early and the registry is untouched; on success one `WindowInfo` per
client (`app_id = class`, `id = address`) and per-class counts replace the
registry contents. -/
def parse_hyprland_clients (j : Json) (st : Registry) : Registry :=
  match dsHyprClients j with
  | none => st
  | some clients =>
    let counts := clients.foldl (fun m c => bumpCount m c.wclass) []
    let window_list := clients.map (fun c =>
      { id := c.address, title := c.title, app_id := c.wclass,
        is_active := false : WindowInfo })
    { windows := window_list, app_window_counts := counts }

/-! ## Sway backend (§4.5): `parse_sway_tree` -/

/-- The `SwayNode` deserialization target; every field carries
`#[serde(default)]`. -/
inductive SwayNode where
  | mk (app_id : Option String) (name : Option String) (nodes : List SwayNode)
      (floating_nodes : List SwayNode) (focused : Bool) (id : Int)
      (node_type : Option String)
  deriving Repr

def SwayNode.app_id : SwayNode → Option String
  | .mk a _ _ _ _ _ _ => a

def SwayNode.name : SwayNode → Option String
  | .mk _ n _ _ _ _ _ => n

def SwayNode.nodes : SwayNode → List SwayNode
  | .mk _ _ ns _ _ _ _ => ns

def SwayNode.floating_nodes : SwayNode → List SwayNode
  | .mk _ _ _ fs _ _ _ => fs

def SwayNode.focused : SwayNode → Bool
  | .mk _ _ _ _ f _ _ => f

def SwayNode.id : SwayNode → Int
  | .mk _ _ _ _ _ i _ => i

def SwayNode.node_type : SwayNode → Option String
  | .mk _ _ _ _ _ _ t => t

/-- Accumulator for `SwayNode` struct deserialization; the outer `Option`
on each slot records whether the field was seen (duplicates error). -/
structure SwayFieldsAcc where
  app_id : Option (Option String) := none
  name : Option (Option String) := none
  nodes : Option (List SwayNode) := none
  floating_nodes : Option (List SwayNode) := none
  focused : Option Bool := none
  id : Option Int := none
  node_type : Option (Option String) := none

mutual

/-- serde `SwayNode`: a JSON object; every present known field must
deserialize, absent fields take their defaults. -/
def dsSwayNode : Json → Option SwayNode
  | Json.obj fields =>
    (dsSwayFields fields {}).map (fun f =>
      SwayNode.mk (f.app_id.getD none) (f.name.getD none) (f.nodes.getD [])
        (f.floating_nodes.getD []) (f.focused.getD false) (f.id.getD 0)
        (f.node_type.getD none))
  | _ => none

/-- Field-by-field walk of a `SwayNode` object (the JSON key for
`node_type` is `"type"`; unknown fields are ignored). -/
def dsSwayFields : List (String × Json) → SwayFieldsAcc → Option SwayFieldsAcc
  | [], acc => some acc
  | (n, j) :: rest, acc =>
    if n == "app_id" then
      match acc.app_id, dsOptString j with
      | none, some v => dsSwayFields rest { acc with app_id := some v }
      | _, _ => none
    else if n == "name" then
      match acc.name, dsOptString j with
      | none, some v => dsSwayFields rest { acc with name := some v }
      | _, _ => none
    else if n == "nodes" then
      match acc.nodes, dsSwayNodeArr j with
      | none, some v => dsSwayFields rest { acc with nodes := some v }
      | _, _ => none
    else if n == "floating_nodes" then
      match acc.floating_nodes, dsSwayNodeArr j with
      | none, some v => dsSwayFields rest { acc with floating_nodes := some v }
      | _, _ => none
    else if n == "focused" then
      match acc.focused, dsBool j with
      | none, some v => dsSwayFields rest { acc with focused := some v }
      | _, _ => none
    else if n == "id" then
      match acc.id, dsInt64 j with
      | none, some v => dsSwayFields rest { acc with id := some v }
      | _, _ => none
    else if n == "type" then
      match acc.node_type, dsOptString j with
      | none, some v => dsSwayFields rest { acc with node_type := some v }
      | _, _ => none
    else
      dsSwayFields rest acc

/-- serde `Vec<SwayNode>`. -/
def dsSwayNodeArr : Json → Option (List SwayNode)
  | Json.arr elems => dsSwayNodeList elems
  | _ => none

/-- Element-wise deserialization of a `SwayNode` array. -/
def dsSwayNodeList : List Json → Option (List SwayNode)
  | [] => some []
  | e :: es =>
    match dsSwayNode e, dsSwayNodeList es with
    | some n, some ns => some (n :: ns)
    | _, _ => none

end

mutual

/-- The nested `collect_windows` helper of `parse_sway_tree`: preorder walk;
a node with type tag `"con"` and a present `app_id` pushes one record and
bumps that app's count; then both child lists are visited. -/
def collect_windows : SwayNode → List WindowInfo → List (String × Nat) →
    List WindowInfo × List (String × Nat)
  | SwayNode.mk app_id name nodes floating_nodes focused id node_type,
      windows, counts =>
    let (windows, counts) :=
      if node_type == some "con" then
        match app_id with
        | some a =>
          (windows ++ [{ id := toString id, title := name.getD "", app_id := a,
                         is_active := focused }],
           bumpCount counts a)
        | none => (windows, counts)
      else (windows, counts)
    let (windows, counts) := collect_windows_list nodes windows counts
    collect_windows_list floating_nodes windows counts

/-- `for child in children { collect_windows(child, ..) }`. -/
def collect_windows_list : List SwayNode → List WindowInfo → List (String × Nat) →
    List WindowInfo × List (String × Nat)
  | [], windows, counts => (windows, counts)
  | c :: cs, windows, counts =>
    let (windows, counts) := collect_windows c windows counts
    collect_windows_list cs windows counts

end

/-- `parse_sway_tree`: deserialization failure (`?`) leaves the registry
untouched; on success the walk's records and counts replace the registry
contents. -/
def parse_sway_tree (j : Json) (st : Registry) : Registry :=
  match dsSwayNode j with
  | none => st
  | some root =>
    let (windows, counts) := collect_windows root [] []
    { windows := windows, app_window_counts := counts }

/-! ## GNOME backend (§4.3): `parse_gnome_windows` -/

/-- A `zvariant` value inside the GNOME property bag; string conversion
(`try_into::<String>`) succeeds only on `vstr`. -/
inductive GVariant where
  | vstr (s : String)
  | vnum (n : Nat)
  | vbool (b : Bool)
  deriving Repr, DecidableEq

/-- `OwnedValue.try_into::<String>().ok()`. -/
def gvAsString : GVariant → Option String
  | GVariant.vstr s => some s
  | _ => none

/-- Property bag of one GNOME window entry. -/
abbrev GnomeProps := List (String × GVariant)

/-- The deserialized `GetWindows` body `a{ta{sv}}`: window id → properties. -/
abbrev GnomeWindowMap := List (Nat × GnomeProps)

/-- `props.get(key)` on the property bag. -/
def lookupProp (props : GnomeProps) (k : String) : Option GVariant :=
  (props.find? (fun kv => kv.1 == k)).map (·.2)

/-- One iteration of the `parse_gnome_windows` loop: extract `app_id`
(placeholder `"unknown"` when the `"app-id"` property is absent or fails
string conversion) and `title` (default `""`), bump the count, push the
record. -/
def gnome_step (acc : List (String × Nat) × List WindowInfo)
    (entry : Nat × GnomeProps) : List (String × Nat) × List WindowInfo :=
  let app_id := ((lookupProp entry.2 "app-id").bind gvAsString).getD "unknown"
  let title := ((lookupProp entry.2 "title").bind gvAsString).getD ""
  (bumpCount acc.1 app_id,
   acc.2 ++ [{ id := toString entry.1, title := title, app_id := app_id,
               is_active := false }])

/-- `parse_gnome_windows`: `none` models a failed `body.deserialize()`
(logged, state untouched).  On success each entry yields one record and one
count bump via `gnome_step`, and the results replace the registry
contents. -/
def parse_gnome_windows (result : Option GnomeWindowMap) (st : Registry) : Registry :=
  match result with
  | none => st
  | some window_map =>
    let (counts, window_list) := window_map.foldl gnome_step ([], [])
    { windows := window_list, app_window_counts := counts }

/-! ## KDE backend (§4.2) -/

/-- `parse_kde_response`: the source ignores its `_reply` argument, logs,
and returns `Ok(())` — no registry field is read or written. -/
def parse_kde_response (st : Registry) : Registry := st

/-- `poll_kde_via_script`: loads the counting script via `loadScript`,
logs whether the load succeeded (`script_load`), and returns `Ok(())`
without ever retrieving the script's result — the registry is not touched
on either outcome. -/
def poll_kde_via_script (script_load : Bool) (st : Registry) : Registry :=
  match script_load with
  | true => st
  | false => st

/-! ## Sway IPC wire format (§4.5): `poll_sway_windows` -/

/-- Byte values of an ASCII string literal (for the `b"i3-ipc"` magic). -/
def asciiBytes (s : String) : List Nat :=
  s.data.map Char.toNat

/-- `u32::to_ne_bytes`: the source uses host-native byte order, so the
encoding is parameterized by the host's endianness (`hostLE`). -/
def u32ToNeBytes (hostLE : Bool) (n : Nat) : List Nat :=
  if hostLE then
    [n % 256, n / 256 % 256, n / 256 ^ 2 % 256, n / 256 ^ 3 % 256]
  else
    [n / 256 ^ 3 % 256, n / 256 ^ 2 % 256, n / 256 % 256, n % 256]

/-- `u32::from_ne_bytes([b0, b1, b2, b3])` in host-native order. -/
def u32FromNeBytes (hostLE : Bool) (b0 b1 b2 b3 : Nat) : Nat :=
  if hostLE then
    b0 + 256 * b1 + 256 ^ 2 * b2 + 256 ^ 3 * b3
  else
    b3 + 256 * b2 + 256 ^ 2 * b1 + 256 ^ 3 * b0

/-- `read_exact(n)` on a byte stream: exactly `n` bytes and the remainder,
or failure when the stream is shorter than `n`. -/
def read_exact (n : Nat) (stream : List Nat) : Option (List Nat × List Nat) :=
  if n ≤ stream.length then some (stream.take n, stream.drop n) else none

/-- The exact byte sequence `poll_sway_windows` writes to the socket:
`write_all(magic)`, `write_all(payload.len().to_ne_bytes())` with the empty
payload, `write_all(4u32.to_ne_bytes())`, `write_all(payload)`. -/
def swayRequestBytes (hostLE : Bool) : List Nat :=
  let magic := asciiBytes "i3-ipc"
  let payload : List Nat := []
  magic ++ u32ToNeBytes hostLE payload.length ++ u32ToNeBytes hostLE 4 ++ payload

/-- The response-consumption half of `poll_sway_windows`: `read_exact` a
14-byte header, decode `from_ne_bytes([header[6], header[7], header[8],
header[9]])`, then `read_exact` that many payload bytes. -/
def poll_sway_read_response (hostLE : Bool) (stream : List Nat) : Option (List Nat) :=
  match read_exact 14 stream with
  | none => none
  | some (header, rest) =>
    let len := u32FromNeBytes hostLE (header.getD 6 0) (header.getD 7 0)
      (header.getD 8 0) (header.getD 9 0)
    match read_exact len rest with
    | none => none
    | some (body, _) => some body

/-! ## Spec-side definitions used to state the claims -/

/-- Case-insensitive test "a desktop-name variable contains `pat`": the
lowercased value of either desktop-name variable contains the (lowercase)
pattern. -/
def desktopNameHas (env : EnvVars) (pat : String) : Bool :=
  containsStr (rustLower (env.xdg_current_desktop.getD "")) pat
  || containsStr (rustLower (env.xdg_session_desktop.getD "")) pat

/-- The spec's detection decision table, written from its own words (first
match wins): Hyprland signature → Hyprland; Sway socket → Sway; desktop
name has "kde" or "plasma" → KDE; desktop name has "gnome" → GNOME; else
Unknown.  Stated independently of `detect_desktop_environment` so the two
can be compared. -/
def detectionSpec (env : EnvVars) : DesktopEnvironment :=
  if env.hyprland_instance_signature.isSome then DesktopEnvironment.Hyprland
  else if env.swaysock.isSome then DesktopEnvironment.Sway
  else if desktopNameHas env "kde" || desktopNameHas env "plasma" then
    DesktopEnvironment.KDE
  else if desktopNameHas env "gnome" then DesktopEnvironment.GNOME
  else DesktopEnvironment.Unknown

mutual

/-- Specification counter: nodes anywhere in the tree (through both child
lists, at any depth) whose type tag is `"con"` and whose `app_id` is
present. -/
def swayWindowNodes : SwayNode → Nat
  | .mk app_id _ nodes floating_nodes _ _ node_type =>
    (if node_type = some "con" then
      match app_id with
      | some _ => 1
      | none => 0
     else 0)
    + swayWindowNodesList nodes + swayWindowNodesList floating_nodes

def swayWindowNodesList : List SwayNode → Nat
  | [] => 0
  | c :: cs => swayWindowNodes c + swayWindowNodesList cs

end

mutual

/-- Specification counter: qualifying nodes carrying precisely app id `a`. -/
def swayAppNodes : SwayNode → String → Nat
  | .mk app_id _ nodes floating_nodes _ _ node_type, a =>
    (if node_type = some "con" ∧ app_id = some a then 1 else 0)
    + swayAppNodesList nodes a + swayAppNodesList floating_nodes a

def swayAppNodesList : List SwayNode → String → Nat
  | [], _ => 0
  | c :: cs, a => swayAppNodes c a + swayAppNodesList cs a

end

/-- A synthetic tree, three levels deep, with one `"con"` leaf holding app
id `"A"` under `nodes` and one holding `"B"` under `floating_nodes`. -/
def swayExampleJson : Json :=
  Json.obj [
    ("type", Json.str "root"),
    ("nodes", Json.arr [
      Json.obj [("type", Json.str "output"),
        ("nodes", Json.arr [
          Json.obj [("type", Json.str "con"), ("app_id", Json.str "A"),
            ("id", Json.num 7), ("name", Json.str "wa")]])]]),
    ("floating_nodes", Json.arr [
      Json.obj [("type", Json.str "workspace"),
        ("floating_nodes", Json.arr [
          Json.obj [("type", Json.str "con"), ("app_id", Json.str "B"),
            ("id", Json.num 9)]])]])]

/-- One registry-writing operation: an external override or one completed
backend parse with the given (already transport-decoded) input. -/
inductive TrackerOp where
  | set_count (app_id : String) (n : Nat)
  | poll_hyprland (j : Json)
  | poll_sway (j : Json)
  | poll_gnome (r : Option GnomeWindowMap)
  | poll_kde_primary
  | poll_kde_script (ok : Bool)

/-- Apply one operation to the registry. -/
def applyOp (st : Registry) : TrackerOp → Registry
  | .set_count a n => set_window_count st a n
  | .poll_hyprland j => parse_hyprland_clients j st
  | .poll_sway j => parse_sway_tree j st
  | .poll_gnome r => parse_gnome_windows r st
  | .poll_kde_primary => parse_kde_response st
  | .poll_kde_script ok => poll_kde_via_script ok st

/-- Run a sequence of operations from a starting registry. -/
def runOps (ops : List TrackerOp) (st : Registry) : Registry :=
  ops.foldl applyOp st

/-- Every stored count is at least 1. -/
def countsPositive (m : List (String × Nat)) : Prop :=
  ∀ kv ∈ m, 1 ≤ kv.2

/-! ## Lemmas about the map model -/

theorem lookupExact_cons (kv : String × Nat) (m : List (String × Nat)) (a : String) :
    lookupExact (kv :: m) a = if kv.1 = a then some kv.2 else lookupExact m a := by
  by_cases h : kv.1 = a
  · have hb : (kv.1 == a) = true := beq_iff_eq.mpr h
    simp [lookupExact, List.find?, hb, h]
  · have hb : (kv.1 == a) = false := beq_eq_false_iff_ne.mpr h
    simp [lookupExact, List.find?, hb, h]

theorem lookupExact_insertCount (m : List (String × Nat)) (k : String) (v : Nat)
    (a : String) :
    lookupExact (insertCount m k v) a = if a = k then some v else lookupExact m a := by
  induction m with
  | nil =>
    by_cases h : a = k
    · subst h; simp [insertCount, lookupExact_cons]
    · have hb : (k == a) = false := beq_eq_false_iff_ne.mpr (Ne.symm h)
      simp [insertCount, lookupExact_cons, h, Ne.symm h, lookupExact, List.find?, hb]
  | cons kv rest ih =>
    by_cases hk : kv.1 = k
    · have hkb : (kv.1 == k) = true := beq_iff_eq.mpr hk
      by_cases h : a = k
      · subst h; simp [insertCount, hkb, lookupExact_cons]
      · simp [insertCount, hkb, lookupExact_cons, h, Ne.symm h, hk,
          fun e => h (hk ▸ e : a = k)]
    · have hkb : (kv.1 == k) = false := beq_eq_false_iff_ne.mpr hk
      simp only [insertCount, hkb, Bool.false_eq_true, if_false, lookupExact_cons, ih]
      by_cases hA : kv.1 = a
      · have h : ¬ a = k := fun e => hk (by rw [hA, e])
        simp [hA, h]
      · simp [hA]

theorem lookupExact_removeCount_self (m : List (String × Nat)) (k : String) :
    lookupExact (removeCount m k) k = none := by
  unfold lookupExact
  rw [List.find?_eq_none.mpr]
  · rfl
  · intro x hx
    have hne := List.of_mem_filter hx
    simp only [bne_iff_ne, ne_eq] at hne
    simp [beq_iff_eq, hne]

theorem mem_removeCount {kv : String × Nat} {m : List (String × Nat)} {k : String}
    (h : kv ∈ removeCount m k) : kv ∈ m :=
  List.mem_of_mem_filter h

theorem mem_insertCount {kv' : String × Nat} {m : List (String × Nat)} {k : String}
    {v : Nat} (h : kv' ∈ insertCount m k v) : kv' = (k, v) ∨ kv' ∈ m := by
  induction m with
  | nil => simpa [insertCount] using h
  | cons kv rest ih =>
    by_cases hk : (kv.1 == k) = true
    · simp only [insertCount, hk, if_true] at h
      rcases List.mem_cons.mp h with h1 | h2
      · exact Or.inl h1
      · exact Or.inr (List.mem_cons_of_mem _ h2)
    · simp only [insertCount, hk, if_false] at h
      rcases List.mem_cons.mp h with h1 | h2
      · exact Or.inr (h1 ▸ List.mem_cons_self kv rest)
      · rcases ih h2 with h3 | h4
        · exact Or.inl h3
        · exact Or.inr (List.mem_cons_of_mem _ h4)

theorem countOf_bumpCount (m : List (String × Nat)) (k a : String) :
    countOf (bumpCount m k) a = countOf m a + if a = k then 1 else 0 := by
  unfold countOf bumpCount
  rw [lookupExact_insertCount]
  by_cases h : a = k
  · subst h; simp
  · simp [h]

theorem getD_take_of_lt (l : List Nat) (n i : Nat) (h : i < n) :
    (l.take n).getD i 0 = l.getD i 0 := by
  simp [List.getD_eq_getElem?_getD, List.getElem?_take, h]

/-! ## Lemmas about the GNOME parse fold -/

theorem collect_windows_mk_eq (app_id name : Option String)
    (nodes floating_nodes : List SwayNode) (focused : Bool) (id : Int)
    (node_type : Option String) (ws : List WindowInfo) (cs : List (String × Nat)) :
    collect_windows (.mk app_id name nodes floating_nodes focused id node_type) ws cs
      = collect_windows_list floating_nodes
          (collect_windows_list nodes
            (if node_type == some "con" then
              match app_id with
              | some a => (ws ++ [⟨toString id, name.getD "", a, focused⟩],
                  bumpCount cs a)
              | none => (ws, cs)
             else (ws, cs)).1
            (if node_type == some "con" then
              match app_id with
              | some a => (ws ++ [⟨toString id, name.getD "", a, focused⟩],
                  bumpCount cs a)
              | none => (ws, cs)
             else (ws, cs)).2).1
          (collect_windows_list nodes
            (if node_type == some "con" then
              match app_id with
              | some a => (ws ++ [⟨toString id, name.getD "", a, focused⟩],
                  bumpCount cs a)
              | none => (ws, cs)
             else (ws, cs)).1
            (if node_type == some "con" then
              match app_id with
              | some a => (ws ++ [⟨toString id, name.getD "", a, focused⟩],
                  bumpCount cs a)
              | none => (ws, cs)
             else (ws, cs)).2).2 := rfl

mutual

theorem collect_windows_totals (n : SwayNode) (ws : List WindowInfo)
    (cs : List (String × Nat)) :
    (collect_windows n ws cs).1.length = ws.length + swayWindowNodes n
    ∧ ∀ a, countOf (collect_windows n ws cs).2 a = countOf cs a + swayAppNodes n a := by
  cases n with
  | mk app_id name nodes floating_nodes focused id node_type =>
    cases hcon : node_type == some "con" with
    | false =>
      have hcon' : ¬ node_type = some "con" := by
        intro h
        rw [beq_eq_false_iff_ne] at hcon
        exact hcon h
      have hred : collect_windows
            (.mk app_id name nodes floating_nodes focused id node_type) ws cs
          = collect_windows_list floating_nodes
              (collect_windows_list nodes ws cs).1
              (collect_windows_list nodes ws cs).2 := by
        rw [collect_windows_mk_eq, hcon]
        simp
      obtain ⟨hln, hcn⟩ := collect_windows_list_totals nodes ws cs
      obtain ⟨hlf, hcf⟩ := collect_windows_list_totals floating_nodes
        (collect_windows_list nodes ws cs).1 (collect_windows_list nodes ws cs).2
      constructor
      · rw [hred, hlf, hln]
        simp [swayWindowNodes, hcon']
        omega
      · intro a
        rw [hred, hcf a, hcn a]
        simp [swayAppNodes, hcon']
        omega
    | true =>
      have hcon' : node_type = some "con" := beq_iff_eq.mp hcon
      cases app_id with
      | none =>
        have hred : collect_windows
              (.mk none name nodes floating_nodes focused id node_type) ws cs
            = collect_windows_list floating_nodes
                (collect_windows_list nodes ws cs).1
                (collect_windows_list nodes ws cs).2 := by
          rw [collect_windows_mk_eq, hcon]
          simp
        obtain ⟨hln, hcn⟩ := collect_windows_list_totals nodes ws cs
        obtain ⟨hlf, hcf⟩ := collect_windows_list_totals floating_nodes
          (collect_windows_list nodes ws cs).1 (collect_windows_list nodes ws cs).2
        constructor
        · rw [hred, hlf, hln]
          simp [swayWindowNodes, hcon']
          omega
        · intro a
          rw [hred, hcf a, hcn a]
          simp [swayAppNodes, swayAppNodesList, hcon']
          omega
      | some b =>
        have hred : collect_windows
              (.mk (some b) name nodes floating_nodes focused id node_type) ws cs
            = collect_windows_list floating_nodes
                (collect_windows_list nodes
                  (ws ++ [⟨toString id, name.getD "", b, focused⟩])
                  (bumpCount cs b)).1
                (collect_windows_list nodes
                  (ws ++ [⟨toString id, name.getD "", b, focused⟩])
                  (bumpCount cs b)).2 := by
          rw [collect_windows_mk_eq, hcon]
          simp
        obtain ⟨hln, hcn⟩ := collect_windows_list_totals nodes
          (ws ++ [⟨toString id, name.getD "", b, focused⟩]) (bumpCount cs b)
        obtain ⟨hlf, hcf⟩ := collect_windows_list_totals floating_nodes
          (collect_windows_list nodes
            (ws ++ [⟨toString id, name.getD "", b, focused⟩]) (bumpCount cs b)).1
          (collect_windows_list nodes
            (ws ++ [⟨toString id, name.getD "", b, focused⟩]) (bumpCount cs b)).2
        constructor
        · rw [hred, hlf, hln]
          simp [swayWindowNodes, hcon']
          omega
        · intro a
          rw [hred, hcf a, hcn a, countOf_bumpCount]
          simp only [swayAppNodes, hcon', true_and]
          by_cases hab : a = b
          · subst hab
            simp
            omega
          · have h1 : ¬ (some b = some a) := fun e => hab (by cases e; rfl)
            simp [hab, h1]
            omega

theorem collect_windows_list_totals (l : List SwayNode) (ws : List WindowInfo)
    (cs : List (String × Nat)) :
    (collect_windows_list l ws cs).1.length = ws.length + swayWindowNodesList l
    ∧ ∀ a, countOf (collect_windows_list l ws cs).2 a
        = countOf cs a + swayAppNodesList l a := by
  cases l with
  | nil => simp [collect_windows_list, swayWindowNodesList, swayAppNodesList]
  | cons c rest =>
    have hred : collect_windows_list (c :: rest) ws cs
        = collect_windows_list rest (collect_windows c ws cs).1
            (collect_windows c ws cs).2 := rfl
    obtain ⟨hl1, hc1⟩ := collect_windows_totals c ws cs
    obtain ⟨hl2, hc2⟩ := collect_windows_list_totals rest
      (collect_windows c ws cs).1 (collect_windows c ws cs).2
    constructor
    · rw [hred, hl2, hl1]
      simp [swayWindowNodesList]
      omega
    · intro a
      rw [hred, hc2 a, hc1 a]
      simp [swayAppNodesList]
      omega

end

/-! ## Positivity of stored counts -/

theorem countsPositive_nil : countsPositive [] := by
  intro kv hkv
  exact absurd hkv (List.not_mem_nil kv)

theorem countsPositive_insertCount {m : List (String × Nat)} {k : String} {v : Nat}
    (hm : countsPositive m) (hv : 1 ≤ v) : countsPositive (insertCount m k v) := by
  intro kv hkv
  rcases mem_insertCount hkv with h | h
  · rw [h]
    exact hv
  · exact hm kv h

theorem countsPositive_bumpCount {m : List (String × Nat)} {k : String}
    (hm : countsPositive m) : countsPositive (bumpCount m k) :=
  countsPositive_insertCount hm (Nat.le_add_left 1 _)

theorem countsPositive_foldl_bump {α : Type} (f : α → String) (l : List α)
    {m : List (String × Nat)} (hm : countsPositive m) :
    countsPositive (l.foldl (fun acc x => bumpCount acc (f x)) m) := by
  induction l generalizing m with
  | nil => exact hm
  | cons x rest ih => exact ih (countsPositive_bumpCount hm)

theorem countsPositive_gnome_fold (m : GnomeWindowMap)
    (acc : List (String × Nat) × List WindowInfo) (h : countsPositive acc.1) :
    countsPositive (m.foldl gnome_step acc).1 := by
  induction m generalizing acc with
  | nil => exact h
  | cons e rest ih => exact ih _ (countsPositive_bumpCount h)

mutual

theorem countsPositive_collect (n : SwayNode) (ws : List WindowInfo)
    (cs : List (String × Nat)) (h : countsPositive cs) :
    countsPositive (collect_windows n ws cs).2 := by
  cases n with
  | mk app_id name nodes floating_nodes focused id node_type =>
    rw [collect_windows_mk_eq]
    have hstep : countsPositive
        (if node_type == some "con" then
          match app_id with
          | some a => (ws ++ [⟨toString id, name.getD "", a, focused⟩],
              bumpCount cs a)
          | none => (ws, cs)
         else (ws, cs)).2 := by
      by_cases hcon : (node_type == some "con") = true
      · cases app_id with
        | some a =>
          simp only [hcon, if_true]
          exact countsPositive_bumpCount h
        | none =>
          simp only [hcon, if_true]
          exact h
      · have hcon' : (node_type == some "con") = false := by
          simpa using hcon
        simp only [hcon', Bool.false_eq_true, if_false]
        exact h
    exact countsPositive_collect_list _ _ _
      (countsPositive_collect_list _ _ _ hstep)

theorem countsPositive_collect_list (l : List SwayNode) (ws : List WindowInfo)
    (cs : List (String × Nat)) (h : countsPositive cs) :
    countsPositive (collect_windows_list l ws cs).2 := by
  cases l with
  | nil => exact h
  | cons c rest =>
    have hred : collect_windows_list (c :: rest) ws cs
        = collect_windows_list rest (collect_windows c ws cs).1
            (collect_windows c ws cs).2 := rfl
    rw [hred]
    exact countsPositive_collect_list _ _ _ (countsPositive_collect c ws cs h)

end

theorem countsPositive_applyOp (st : Registry) (op : TrackerOp)
    (h : countsPositive st.app_window_counts) :
    countsPositive (applyOp st op).app_window_counts := by
  cases op with
  | set_count a n =>
    show countsPositive (set_window_count st a n).app_window_counts
    unfold set_window_count
    by_cases hn : (n == 0) = true
    · simp only [hn, if_true]
      intro kv hkv
      exact h kv (mem_removeCount hkv)
    · have hn' : (n == 0) = false := by simpa using hn
      simp only [hn', Bool.false_eq_true, if_false]
      have hpos : 1 ≤ n := by
        have : n ≠ 0 := by simpa [beq_iff_eq] using hn
        omega
      exact countsPositive_insertCount h hpos
  | poll_hyprland j =>
    show countsPositive (parse_hyprland_clients j st).app_window_counts
    unfold parse_hyprland_clients
    cases hds : dsHyprClients j with
    | none => exact h
    | some clients =>
      exact countsPositive_foldl_bump (fun c => c.wclass) clients countsPositive_nil
  | poll_sway j =>
    show countsPositive (parse_sway_tree j st).app_window_counts
    unfold parse_sway_tree
    cases hds : dsSwayNode j with
    | none => exact h
    | some root =>
      exact countsPositive_collect root [] [] countsPositive_nil
  | poll_gnome r =>
    show countsPositive (parse_gnome_windows r st).app_window_counts
    cases r with
    | none => exact h
    | some m =>
      exact countsPositive_gnome_fold m ([], []) countsPositive_nil
  | poll_kde_primary => exact h
  | poll_kde_script ok =>
    cases ok <;> exact h

/-! ## The claims -/

/-- Claim C1: for every backend, when a poll's parse step fails (the body
does not deserialize), the registry's window list and count map are left
exactly as they were, so `get_all_windows` still returns the set from the
last successful poll.  The Hyprland and Sway conjuncts quantify over every
undeserializable JSON body; the GNOME conjunct covers a failed
`body.deserialize()`. -/
theorem parse_failure_keeps_prior_state :
    (∀ (j : Json) (st : Registry), dsHyprClients j = none →
      parse_hyprland_clients j st = st
      ∧ get_all_windows (parse_hyprland_clients j st) = get_all_windows st)
    ∧ (∀ (j : Json) (st : Registry), dsSwayNode j = none →
      parse_sway_tree j st = st
      ∧ get_all_windows (parse_sway_tree j st) = get_all_windows st)
    ∧ (∀ st : Registry, parse_gnome_windows none st = st
      ∧ get_all_windows (parse_gnome_windows none st) = get_all_windows st) := by
  refine ⟨?_, ?_, ?_⟩
  · intro j st h
    have he : parse_hyprland_clients j st = st := by
      unfold parse_hyprland_clients
      rw [h]
    exact ⟨he, by rw [he]⟩
  · intro j st h
    have he : parse_sway_tree j st = st := by
      unfold parse_sway_tree
      rw [h]
    exact ⟨he, by rw [he]⟩
  · intro st
    exact ⟨rfl, rfl⟩

/-- Witness for C1: a registry holding one window from a successful poll is
untouched by a Hyprland poll whose body is a bare string and by a Sway poll
whose body is a bare array. -/
theorem parse_failure_keeps_prior_state_witness :
    parse_hyprland_clients (Json.str "garbage") ⟨[⟨"0x1", "t", "X", false⟩], [("X", 1)]⟩
      = ⟨[⟨"0x1", "t", "X", false⟩], [("X", 1)]⟩
    ∧ parse_sway_tree (Json.arr []) ⟨[⟨"0x1", "t", "X", false⟩], [("X", 1)]⟩
      = ⟨[⟨"0x1", "t", "X", false⟩], [("X", 1)]⟩ :=
  ⟨(parse_failure_keeps_prior_state.1 (Json.str "garbage") _ (by decide)).1,
   (parse_failure_keeps_prior_state.2.1 (Json.arr []) _ rfl).1⟩

/-- Counterexample to claim C3: a `"con"` node carrying the EMPTY app id
`""` still produces a record and a count, although the claim requires a
non-empty application id. -/
theorem sway_empty_app_id_counted_cex :
    dsSwayNode (Json.obj [("type", Json.str "con"), ("app_id", Json.str "")])
      = some (SwayNode.mk (some "") none [] [] false 0 (some "con"))
    ∧ (parse_sway_tree (Json.obj [("type", Json.str "con"), ("app_id", Json.str "")])
        Registry.empty).windows = [⟨"0", "", "", false⟩]
    ∧ countOf (parse_sway_tree (Json.obj [("type", Json.str "con"), ("app_id", Json.str "")])
        Registry.empty).app_window_counts "" = 1 :=
  ⟨rfl, by decide, by decide⟩

/-- Claim C3 as amended: the walk visits every node reachable through both
child lists at any depth, and produces one record (and one count) for a
node exactly when its type tag is `"con"` AND it carries a PRESENT
(possibly empty) `app_id`; the three-level synthetic tree with leaves `"A"`
and `"B"` yields exactly 2 records and counts A ↦ 1, B ↦ 1. -/
theorem sway_traversal_totals :
    (∀ (root : SwayNode) (a : String),
      (collect_windows root [] []).1.length = swayWindowNodes root
      ∧ countOf (collect_windows root [] []).2 a = swayAppNodes root a)
    ∧ (parse_sway_tree swayExampleJson Registry.empty).windows.map
        (fun w => w.app_id) = ["A", "B"]
    ∧ (parse_sway_tree swayExampleJson Registry.empty).windows.length = 2
    ∧ countOf (parse_sway_tree swayExampleJson Registry.empty).app_window_counts "A" = 1
    ∧ countOf (parse_sway_tree swayExampleJson Registry.empty).app_window_counts "B" = 1 := by
  refine ⟨?_, by decide, by decide, by decide, by decide⟩
  intro root a
  obtain ⟨hl, hc⟩ := collect_windows_totals root [] []
  exact ⟨by simpa using hl, by simpa [countOf, lookupExact] using hc a⟩

/-- Counterexample to claim C4: neither KDE path updates the app-to-count
mapping — a stale count survives both paths unchanged, and starting from the
empty registry the mapping stays empty no matter what KWin reported. -/
theorem kde_paths_touch_nothing_cex :
    (parse_kde_response ⟨[], [("stale", 3)]⟩).app_window_counts = [("stale", 3)]
    ∧ (poll_kde_via_script true ⟨[], [("stale", 3)]⟩).app_window_counts = [("stale", 3)]
    ∧ (poll_kde_via_script false ⟨[], [("stale", 3)]⟩).app_window_counts = [("stale", 3)]
    ∧ (parse_kde_response Registry.empty).app_window_counts = [] :=
  ⟨rfl, rfl, rfl, rfl⟩

/-- Claim C4 as amended: both KDE paths, when they complete, leave the
whole registry exactly unchanged — the primary parse is a stub and the
scripting fallback never retrieves the script's result, so in particular
the count map is never updated. -/
theorem kde_paths_leave_registry_unchanged :
    ∀ (st : Registry) (script_load : Bool),
      parse_kde_response st = st ∧ poll_kde_via_script script_load st = st := by
  intro st b
  cases b <;> exact ⟨rfl, rfl⟩

/-- Claim C5: `get_window_count` returns the exact-match count when the
query is a stored key; otherwise, when some stored key matches the fuzzy
predicate, it returns the count of a matching key; otherwise 0.  A registry
storing exactly `"Firefox"` answers `"firefox"`, `"FIREFOX"` and
`"Firefox"` with the same count. -/
theorem get_window_count_contract :
    (∀ (st : Registry) (a : String) (c : Nat),
      lookupExact st.app_window_counts a = some c → get_window_count st a = c)
    ∧ (∀ (st : Registry) (a : String),
      lookupExact st.app_window_counts a = none →
      (∃ kv ∈ st.app_window_counts, fuzzy_match kv.1 (rustLower a) = true) →
      ∃ kv ∈ st.app_window_counts, fuzzy_match kv.1 (rustLower a) = true
        ∧ get_window_count st a = kv.2)
    ∧ (∀ (st : Registry) (a : String),
      (∀ kv ∈ st.app_window_counts, fuzzy_match kv.1 (rustLower a) = false) →
      get_window_count st a = 0)
    ∧ (∀ (ws : List WindowInfo) (c : Nat),
      get_window_count ⟨ws, [("Firefox", c)]⟩ "firefox" = c
      ∧ get_window_count ⟨ws, [("Firefox", c)]⟩ "FIREFOX" = c
      ∧ get_window_count ⟨ws, [("Firefox", c)]⟩ "Firefox" = c) := by
  refine ⟨?_, ?_, ?_, ?_⟩
  · intro st a c h
    unfold get_window_count
    rw [h]
  · intro st a hnone hex
    have hsome : (st.app_window_counts.find?
        (fun kv => fuzzy_match kv.1 (rustLower a))).isSome := by
      rw [List.find?_isSome]
      exact hex
    obtain ⟨kv, hfind⟩ := Option.isSome_iff_exists.mp hsome
    have hp : fuzzy_match kv.1 (rustLower a) = true := by
      have := List.find?_some hfind
      simpa using this
    refine ⟨kv, List.mem_of_find?_eq_some hfind, hp, ?_⟩
    unfold get_window_count
    rw [hnone, hfind]
  · intro st a hall
    have hfind : st.app_window_counts.find?
        (fun kv => fuzzy_match kv.1 (rustLower a)) = none := by
      rw [List.find?_eq_none]
      intro x hx
      simp [hall x hx]
    have hnone : lookupExact st.app_window_counts a = none := by
      cases h : lookupExact st.app_window_counts a with
      | none => rfl
      | some c =>
        exfalso
        unfold lookupExact at h
        rw [Option.map_eq_some'] at h
        obtain ⟨kv, hk, _⟩ := h
        have hkey : kv.1 = a := by
          have := List.find?_some hk
          simpa [beq_iff_eq] using this
        have hmem : kv ∈ st.app_window_counts := List.mem_of_find?_eq_some hk
        have hmatch : fuzzy_match kv.1 (rustLower a) = true := by
          unfold fuzzy_match
          rw [hkey]
          simp
        rw [hall kv hmem] at hmatch
        exact Bool.false_ne_true hmatch
    unfold get_window_count
    rw [hnone, hfind]
  · intro ws c
    refine ⟨?_, ?_, ?_⟩
    · have h1 : (("Firefox" : String) == "firefox") = false := by decide
      have h2 : fuzzy_match "Firefox" (rustLower "firefox") = true := by decide
      simp [get_window_count, lookupExact, List.find?, h1, h2]
    · have h1 : (("Firefox" : String) == "FIREFOX") = false := by decide
      have h2 : fuzzy_match "Firefox" (rustLower "FIREFOX") = true := by decide
      simp [get_window_count, lookupExact, List.find?, h1, h2]
    · simp [get_window_count, lookupExact, List.find?]

/-- Witness for C5: exact-match branch at a stored count of 5. -/
theorem get_window_count_contract_witness :
    get_window_count ⟨[], [("x", 5)]⟩ "x" = 5 :=
  get_window_count_contract.1 ⟨[], [("x", 5)]⟩ "x" 5 (by decide)

/-- Claim C6: the Sway request is exactly the 6 ASCII bytes `"i3-ipc"`,
then the 4-byte payload length (0), then the 4-byte type code 4, then the
empty payload — 14 bytes in all; the response is consumed by reading
exactly 14 header bytes (failing on a shorter stream), decoding the 4-byte
length field at offset 6, then reading exactly that many payload bytes
(failing when fewer are available).  Stated for either host byte order,
since the source uses native-endian encodings. -/
theorem sway_wire_format :
    (∀ hostLE : Bool,
      swayRequestBytes hostLE
        = asciiBytes "i3-ipc" ++ u32ToNeBytes hostLE 0 ++ u32ToNeBytes hostLE 4)
    ∧ asciiBytes "i3-ipc" = [105, 51, 45, 105, 112, 99]
    ∧ (∀ (hostLE : Bool) (n : Nat), (u32ToNeBytes hostLE n).length = 4)
    ∧ (∀ hostLE : Bool, (swayRequestBytes hostLE).length = 14)
    ∧ (∀ (hostLE : Bool) (stream : List Nat), stream.length < 14 →
        poll_sway_read_response hostLE stream = none)
    ∧ (∀ (hostLE : Bool) (stream : List Nat), 14 ≤ stream.length →
        u32FromNeBytes hostLE (stream.getD 6 0) (stream.getD 7 0) (stream.getD 8 0)
            (stream.getD 9 0) ≤ stream.length - 14 →
        poll_sway_read_response hostLE stream
          = some ((stream.drop 14).take (u32FromNeBytes hostLE (stream.getD 6 0)
              (stream.getD 7 0) (stream.getD 8 0) (stream.getD 9 0))))
    ∧ (∀ (hostLE : Bool) (stream : List Nat), 14 ≤ stream.length →
        stream.length - 14 < u32FromNeBytes hostLE (stream.getD 6 0) (stream.getD 7 0)
            (stream.getD 8 0) (stream.getD 9 0) →
        poll_sway_read_response hostLE stream = none) := by
  refine ⟨?_, by decide, ?_, ?_, ?_, ?_, ?_⟩
  · intro hostLE
    simp [swayRequestBytes]
  · intro hostLE n
    cases hostLE <;> simp [u32ToNeBytes]
  · intro hostLE
    cases hostLE <;> rfl
  · intro hostLE stream h
    unfold poll_sway_read_response read_exact
    rw [if_neg (by omega)]
  · intro hostLE stream h14 hlen
    unfold poll_sway_read_response read_exact
    rw [if_pos h14]
    simp only [getD_take_of_lt stream 14 6 (by omega), getD_take_of_lt stream 14 7 (by omega),
      getD_take_of_lt stream 14 8 (by omega), getD_take_of_lt stream 14 9 (by omega)]
    rw [if_pos (by rw [List.length_drop]; omega)]
  · intro hostLE stream h14 hlen
    unfold poll_sway_read_response read_exact
    rw [if_pos h14]
    simp only [getD_take_of_lt stream 14 6 (by omega), getD_take_of_lt stream 14 7 (by omega),
      getD_take_of_lt stream 14 8 (by omega), getD_take_of_lt stream 14 9 (by omega)]
    rw [if_neg (by rw [List.length_drop]; omega)]

/-- Witness for C6: a little-endian response with length field 2 at offset 6
and three available payload bytes yields exactly the first two. -/
theorem sway_wire_format_witness :
    poll_sway_read_response true
      [105, 51, 45, 105, 112, 99, 2, 0, 0, 0, 0, 0, 0, 0, 7, 8, 9] = some [7, 8] := by
  have h := sway_wire_format.2.2.2.2.2.1 true
    [105, 51, 45, 105, 112, 99, 2, 0, 0, 0, 0, 0, 0, 0, 7, 8, 9] (by decide) (by decide)
  exact h.trans (by decide)

/-- Claim C7: `set_window_count x n` with positive `n` makes
`get_window_count x` return `n` from any state; setting 5 then 0 removes
the entry from the map in any state, and from the empty registry the
subsequent `get_window_count x` returns 0. -/
theorem set_then_get_round_trip :
    (∀ (st : Registry) (x : String) (n : Nat), 0 < n →
      get_window_count (set_window_count st x n) x = n)
    ∧ (∀ (st : Registry) (x : String),
      lookupExact (set_window_count (set_window_count st x 5) x 0).app_window_counts x
        = none)
    ∧ (∀ x : String,
      get_window_count (set_window_count (set_window_count Registry.empty x 5) x 0) x
        = 0) := by
  refine ⟨?_, ?_, ?_⟩
  · intro st x n hn
    have hz : (n == 0) = false := by simp [beq_iff_eq]; omega
    simp only [set_window_count, hz, Bool.false_eq_true, if_false]
    simp only [get_window_count, lookupExact_insertCount]
    simp
  · intro st x
    have h5 : ((5 : Nat) == 0) = false := by decide
    simp only [set_window_count, h5, Bool.false_eq_true, if_false, if_pos rfl]
    exact lookupExact_removeCount_self _ _
  · intro x
    have h5 : ((5 : Nat) == 0) = false := by decide
    simp only [set_window_count, h5, Bool.false_eq_true, if_false, if_pos rfl,
      Registry.empty]
    simp only [insertCount, removeCount, List.filter]
    have hxx : (x != x) = false := by simp
    simp only [hxx]
    simp [get_window_count, lookupExact, List.find?]

/-- Witness for C7: the round trip at `x`, 5 on the empty registry. -/
theorem set_then_get_round_trip_witness :
    get_window_count (set_window_count Registry.empty "x" 5) "x" = 5 :=
  set_then_get_round_trip.1 Registry.empty "x" 5 (by decide)

/-- Claim C8: after any sequence of count-map writes (external overrides
and completed backend parses) starting from the freshly constructed
registry, every stored count is at least 1 — no zero-valued entry is ever
present. -/
theorem stored_counts_are_positive :
    ∀ (ops : List TrackerOp) (kv : String × Nat),
      kv ∈ (runOps ops Registry.empty).app_window_counts → 1 ≤ kv.2 := by
  have main : ∀ (ops : List TrackerOp) (st : Registry),
      countsPositive st.app_window_counts →
      countsPositive (runOps ops st).app_window_counts := by
    intro ops
    induction ops with
    | nil => intro st h; exact h
    | cons op rest ih =>
      intro st h
      exact ih _ (countsPositive_applyOp st op h)
  intro ops kv hkv
  exact main ops Registry.empty countsPositive_nil kv hkv

/-- Witness for C8: one override writing 3 stores a positive entry. -/
theorem stored_counts_are_positive_witness :
    ("x", 3) ∈ (runOps [TrackerOp.set_count "x" 3] Registry.empty).app_window_counts
    ∧ 1 ≤ (3 : Nat) :=
  ⟨by decide, stored_counts_are_positive [TrackerOp.set_count "x" 3] ("x", 3) (by decide)⟩

/-- Claim C9: detection agrees with the spec's first-match decision table on
every environment, and a compositor signature wins over KDE/GNOME desktop
names; with no markers at all the result is Unknown (no error state). -/
theorem detection_follows_decision_order :
    (∀ env : EnvVars, detect_desktop_environment env = detectionSpec env)
    ∧ detect_desktop_environment ⟨some "KDE", some "GNOME", some "sig", some "/sock"⟩
      = DesktopEnvironment.Hyprland
    ∧ detect_desktop_environment ⟨some "KDE", none, none, some "/sock"⟩
      = DesktopEnvironment.Sway
    ∧ detect_desktop_environment ⟨none, none, none, none⟩
      = DesktopEnvironment.Unknown := by
  refine ⟨?_, by decide, by decide, by decide⟩
  intro env
  rcases env with ⟨d, s, hy, sw⟩
  cases hy <;> cases sw <;>
    simp [detect_desktop_environment, detectionSpec, desktopNameHas,
      Bool.or_assoc, Bool.or_comm, Bool.or_left_comm]

/-- Claim C10: `get_window_count` and `get_windows_for_app` can disagree —
with `"Firefox" ↦ 1` and `"firefox-esr" ↦ 2` stored, the query `"Firefox"`
returns count 1 (exact-match short circuit) while the record lookup returns
all 3 fuzzily matching records. -/
theorem count_and_records_can_disagree :
    get_window_count
      ⟨[⟨"1", "", "Firefox", false⟩, ⟨"2", "", "firefox-esr", false⟩,
        ⟨"3", "", "firefox-esr", false⟩],
       [("Firefox", 1), ("firefox-esr", 2)]⟩ "Firefox" = 1
    ∧ (get_windows_for_app
      ⟨[⟨"1", "", "Firefox", false⟩, ⟨"2", "", "firefox-esr", false⟩,
        ⟨"3", "", "firefox-esr", false⟩],
       [("Firefox", 1), ("firefox-esr", 2)]⟩ "Firefox").length = 3
    ∧ (1 : Nat) ≠ 3 := by
  decide
